import Mathlib

/-!
Shallow embedding of the `libpath` repository (crates `libproduct` and
`libpath`) and proofs about its specification.

Rust strings are modelled as Lean `String`; `str::replace` (literal,
non-overlapping, left-to-right, all occurrences, replacement text not
rescanned) is modelled by `sreplace` below, implemented by a
fuel-indexed scan over the character list (fuel = length of the
scanned list, always sufficient).  Patterns are never empty at any
call site of the repository; `replaceList` returns the string
unchanged on an empty pattern.
-/

namespace LibPath

/-- Decides whether `pat` occurs as a contiguous substring of `s`. -/
def containsSub (pat : List Char) : List Char → Bool
  | [] => pat.isEmpty
  | c :: rest => pat.isPrefixOf (c :: rest) || containsSub pat rest

/-- One scan step of Rust `str::replace` with nonempty pattern `p :: ps`:
either the pattern matches at the head (emit `rep`, skip the match), or
the head character is copied.  `fuel` bounds the recursion; it is always
called with `fuel ≥` length of the scanned list. -/
def replaceGo (p : Char) (ps : List Char) (rep : List Char) : Nat → List Char → List Char
  | _, [] => []
  | 0, s => s
  | fuel + 1, c :: rest =>
    if (p :: ps).isPrefixOf (c :: rest) then
      rep ++ replaceGo p ps rep fuel (rest.drop ps.length)
    else
      c :: replaceGo p ps rep fuel rest

/-- Rust `str::replace` on character lists. -/
def replaceList (s pat rep : List Char) : List Char :=
  match pat with
  | [] => s
  | p :: ps => replaceGo p ps rep s.length s

/-- Rust `str::replace` on strings. -/
def sreplace (s pat rep : String) : String :=
  (replaceList s.data pat.data rep.data).asString

/-- Rust `str::trim` on character lists (drop whitespace at both ends). -/
def trimList (l : List Char) : List Char :=
  ((l.dropWhile Char.isWhitespace).reverse.dropWhile Char.isWhitespace).reverse

/-- Rust `str::trim` on strings. -/
def strim (s : String) : String := (trimList s.data).asString

theorem data_asString (l : List Char) : (List.asString l).data = l := rfl

theorem asString_data (s : String) : s.data.asString = s := rfl

theorem sreplace_data (s pat rep : String) :
    (sreplace s pat rep).data = replaceList s.data pat.data rep.data := rfl

theorem replaceList_nil (s rep : List Char) : replaceList s [] rep = s := rfl

theorem replaceList_cons (s rep : List Char) (p : Char) (ps : List Char) :
    replaceList s (p :: ps) rep = replaceGo p ps rep s.length s := rfl

/-- If the (nonempty) pattern does not occur in `s`, a replace scan leaves
`s` unchanged, for any fuel and any replacement. -/
theorem replaceGo_of_not_contains (p : Char) (ps rep : List Char) :
    ∀ (n : Nat) (s : List Char), containsSub (p :: ps) s = false →
      replaceGo p ps rep n s = s := by
  intro n s
  induction s generalizing n with
  | nil => intro _; cases n <;> rfl
  | cons c rest ih =>
    intro h
    rw [containsSub, Bool.or_eq_false_iff] at h
    cases n with
    | zero => rfl
    | succ fuel =>
      rw [replaceGo, if_neg (by simp [h.1]), ih fuel h.2]

/-- String-level version: a pattern that does not occur is not replaced. -/
theorem sreplace_of_not_contains (s pat rep : String)
    (h : containsSub pat.data s.data = false) : sreplace s pat rep = s := by
  unfold sreplace
  cases hp : pat.data with
  | nil => rw [replaceList_nil]; exact asString_data s
  | cons p ps =>
    rw [hp] at h
    rw [replaceList_cons, replaceGo_of_not_contains p ps rep.data s.data.length s.data h]
    exact asString_data s

/-- Replacing a whole (nonempty) character list by `rep` yields `rep`. -/
theorem replaceList_self (p : Char) (ps rep : List Char) :
    replaceList (p :: ps) (p :: ps) rep = rep := by
  rw [replaceList_cons]
  show replaceGo p ps rep (ps.length + 1) (p :: ps) = rep
  rw [replaceGo, if_pos (List.isPrefixOf_iff_prefix.mpr (List.prefix_refl _)),
    List.drop_length, replaceGo, List.append_nil]

/-- Replacing a whole (nonempty) string by `rep` yields `rep`. -/
theorem sreplace_self (s rep : String) (h : s.data ≠ []) :
    sreplace s s rep = rep := by
  unfold sreplace
  cases hp : s.data with
  | nil => exact absurd hp h
  | cons p ps =>
    rw [replaceList_self]
    exact asString_data rep

/-- Modelled from the spec: the `package` sub-record of the build-provenance
record supplied by the external `libbuildinfo` crate (not under `src/`);
only its optional `version` field is consumed by `ProductName`. -/
structure Package where
  version : Option String
deriving DecidableEq, Repr

/-- Modelled from the spec: OS description inside the build agent record. -/
structure OsInfo where
  name : String
  version : String
  long_version : String
  architecture : String
deriving DecidableEq, Repr

/-- Modelled from the spec: human-readable total-memory record. -/
structure MemoryTotal where
  human : String
deriving DecidableEq, Repr

/-- Modelled from the spec: memory record of the build agent. -/
structure Memory where
  total : MemoryTotal
deriving DecidableEq, Repr

/-- Modelled from the spec: build-host metadata (hostname, OS, CPU count,
memory) of the build-provenance record. -/
structure Agent where
  hostname : String
  os : OsInfo
  ncpus : Nat
  memory : Memory
deriving DecidableEq, Repr

/-- Modelled from the spec: version-control metadata of the build-provenance
record (branch, commit hashes, dirty flag, message, author, tags, remote,
commit count). -/
structure GitInfo where
  branch : Option String
  commit_hash : String
  commit_short_hash : String
  dirty : Bool
  commit_message : Option String
  author_name : Option String
  author_email : Option String
  tags : List String
  remote_url : Option String
  commit_count : Option Nat
deriving DecidableEq, Repr

/-- Modelled from the spec: the opaque optional build-provenance record
(`BuildInfo` of the external `libbuildinfo` crate). -/
structure BuildInfo where
  package : Package
  git : GitInfo
  agent : Agent
deriving DecidableEq, Repr

/-- `ProductName` of `libproduct/src/lib.rs`. -/
structure ProductName where
  base : String
  ext : List String
  version : String
  build : Option BuildInfo
deriving DecidableEq, Repr

/-- `ProductName::new`. -/
def ProductName.new (base version : String) (package : Option BuildInfo) : ProductName :=
  ⟨base, [], version, package⟩

/-- `ProductName::with`: clone the receiver and push one extension segment
(`with` is a Lean keyword, hence the underscore). -/
def ProductName.with_ (pn : ProductName) (ext : String) : ProductName :=
  { pn with ext := pn.ext ++ [ext] }

/-- The `Display` implementation for `ProductName` (also `ProductName::name`):
write the base, then each extension prefixed with a dot. -/
def ProductName.name (pn : ProductName) : String :=
  pn.ext.foldl (fun acc e => acc ++ "." ++ e) pn.base

/-- `ProductName::version` (the method; named after the spec operation
`resolved_version` because the `version` field takes the source name):
the build record's package version when present, else the own field. -/
def ProductName.resolved_version (pn : ProductName) : String :=
  (pn.build.bind fun build => build.package.version).getD pn.version

/-- A sequence of `with` calls issued in order. -/
def ProductName.withMany (pn : ProductName) (exts : List String) : ProductName :=
  exts.foldl (fun p e => p.with_ e) pn

/-- `ProductName::descriptor`: chained literal replacements of `{KEY}`
placeholders, transliterated in source order. -/
def ProductName.descriptor (pn : ProductName) (fmt : String) : String :=
  let opt : Option String → String := fun o => o.getD ""
  let out := sreplace (sreplace fmt "{NAME}" pn.name) "{VERSION}" pn.resolved_version
  match pn.build with
  | some build =>
    let git := build.git
    let agent := build.agent
    let out := sreplace out "{GIT_REF}" (opt git.branch)
    let out := sreplace out "{GIT_LONG_HASH}" git.commit_hash
    let out := sreplace out "{GIT_HASH}" git.commit_short_hash
    let out := sreplace out "{GIT_DIRTY}" (if git.dirty then "dirty" else "")
    let out := sreplace out "{GIT_DIRTY_STAR}" (if git.dirty then "*" else "")
    let out := sreplace out "{GIT_MESSAGE}" (strim (opt git.commit_message))
    let out := sreplace out "{GIT_AUTHOR}" (opt git.author_name)
    let out := sreplace out "{GIT_EMAIL}" (opt git.author_email)
    let out := sreplace out "{GIT_TAGS}" (String.intercalate "," git.tags)
    let out := sreplace out "{GIT_REMOTE}" (opt git.remote_url)
    let out := sreplace out "{GIT_COMMIT_COUNT}" ((git.commit_count.map (fun c => toString c)).getD "")
    let out := sreplace out "{BUILD_HOST}" agent.hostname
    let out := sreplace out "{BUILD_OS}" agent.os.name
    let out := sreplace out "{BUILD_OS_VERSION}" agent.os.version
    let out := sreplace out "{BUILD_OS_LONG}" agent.os.long_version
    let out := sreplace out "{BUILD_ARCH}" agent.os.architecture
    let out := sreplace out "{BUILD_CPUS}" (toString agent.ncpus)
    let out := sreplace out "{BUILD_MEM}" agent.memory.total.human
    out
  | none =>
    let out := sreplace out "{GIT_REF}" ""
    let out := sreplace out "{GIT_LONG_HASH}" ""
    let out := sreplace out "{GIT_HASH}" ""
    let out := sreplace out "{GIT_DIRTY}" ""
    let out := sreplace out "{GIT_MESSAGE}" ""
    let out := sreplace out "{GIT_AUTHOR}" ""
    let out := sreplace out "{GIT_EMAIL}" ""
    let out := sreplace out "{GIT_TAGS}" ""
    let out := sreplace out "{GIT_REMOTE}" ""
    let out := sreplace out "{GIT_COMMIT_COUNT}" ""
    let out := sreplace out "{BUILD_HOST}" ""
    let out := sreplace out "{BUILD_OS}" ""
    let out := sreplace out "{BUILD_OS_VERSION}" ""
    let out := sreplace out "{BUILD_OS_LONG}" ""
    let out := sreplace out "{BUILD_ARCH}" ""
    let out := sreplace out "{BUILD_CPUS}" ""
    let out := sreplace out "{BUILD_MEM}" ""
    out

namespace format

/-- Preset format `SHORT`. -/
def SHORT : String := "{NAME} v{VERSION}"

/-- Preset format `DEFAULT`. -/
def DEFAULT : String := "{NAME} v{VERSION} ({GIT_REF}@{GIT_HASH})"

/-- Preset format `DEFAULT_DIRTY`. -/
def DEFAULT_DIRTY : String := "{NAME} v{VERSION} ({GIT_REF}@{GIT_HASH}{GIT_DIRTY_STAR})"

/-- Preset format `LONG`. -/
def LONG : String :=
  "{NAME} v{VERSION} | {GIT_REF}@{GIT_HASH} | {BUILD_HOST} ({BUILD_OS} {BUILD_OS_VERSION})"

/-- Preset format `FULL`. -/
def FULL : String :=
  "{NAME} v{VERSION} | {GIT_REF}@{GIT_HASH} {GIT_DIRTY} | {GIT_AUTHOR} | {BUILD_HOST} ({BUILD_OS_LONG} {BUILD_ARCH})"

/-- Preset format `USER_AGENT`. -/
def USER_AGENT : String := "{NAME}/{VERSION} ({BUILD_OS}; {BUILD_ARCH})"

/-- Preset format `GIT_REF_SHORT`. -/
def GIT_REF_SHORT : String := "{GIT_REF}@{GIT_HASH}"

end format

/-- `ProductName::set_global`: the `OnceLock` cell modelled as explicit
`Option ProductName` state; setting succeeds only when unset and otherwise
leaves the stored value unchanged. -/
def set_global (st : Option ProductName) (pn : ProductName) :
    Option ProductName × Except String Unit :=
  match st with
  | none => (some pn, Except.ok ())
  | some v => (some v, Except.error "Product name has already been set")

/-- `ProductName::global`: read the cell (a clone of the stored value). -/
def global (st : Option ProductName) : Option ProductName := st

/-- State after a whole sequence of registration attempts. -/
def registerAll (st : Option ProductName) (ps : List ProductName) : Option ProductName :=
  ps.foldl (fun s p => (set_global s p).1) st

example : (ProductName.new "app" "1.0" none).descriptor format.SHORT = "app v1.0" := by decide

example : ((ProductName.new "a" "1" none).with_ "b").name = "a.b" := by decide

/-! The `libpath` crate.  Paths are segment lists (`PathBuf::join` of one
segment appends it); the filesystem is a list of entries, each a path
tagged as directory or non-directory, so that the `exists()` check (which
ignores the entry kind) can be modelled faithfully.  The platform directory
provider (the external `dirs` crate) is an explicit function argument, and
the `expect` calls on its result are modelled by an `Option` result. -/

/-- One logical directory kind per generated `dirs` wrapper function. -/
inductive DirKind where
  | audio | cache | config | config_local | data | data_local | desktop
  | document | download | executable | font | home | picture | preference
  | public | runtime | state | template | video
deriving DecidableEq, Repr

/-- A filesystem path, as the list of segments joined onto the provider root. -/
abbrev Path := List String

/-- An entry is a directory or something that is not a directory. -/
inductive FsKind where
  | dir | file
deriving DecidableEq, Repr

/-- The filesystem: a list of existing entries with their kinds. -/
abbrev Fs := List (Path × FsKind)

/-- `Path::exists`: the path has an entry of any kind. -/
def fsExists (fs : Fs) (p : Path) : Bool :=
  fs.any (fun e => e.1 == p)

/-- `std::fs::create_dir_all`: add the path and every missing ancestor as
directory entries. -/
def create_dir_all (fs : Fs) (p : Path) : Fs :=
  fs ++ (p.inits.filter (fun a => !(fsExists fs a))).map (fun a => (a, FsKind.dir))

/-- `MkdirIfNotExists::mkdir_if_not_exists`: return early when `exists()`
reports true, otherwise create the directory chain.  The returned triple is
(path, filesystem, whether creation was attempted). -/
def mkdir_if_not_exists (p : Path) (fs : Fs) : Path × Fs × Bool :=
  if fsExists fs p then (p, fs, false) else (p, create_dir_all fs p, true)

/-- `DEFAULT_PRODUCT_NAME` of `libpath/src/lib.rs`: base
`dev.thmsn.unspecified`, no extensions; its version and build info come
from the build environment and do not affect the rendered name. -/
def DEFAULT_PRODUCT_NAME (version : String) (build : Option BuildInfo) : ProductName :=
  ProductName.new "dev.thmsn.unspecified" version build

/-- The body generated by `wrap_dirs!` for every directory kind: render the
globally registered product name (or the default), ask the provider for the
base path of the kind, join the single product-name segment, and ensure the
directory exists.  `none` models the `expect` panic when the provider cannot
resolve the kind. -/
def appDir (provider : DirKind → Option Path) (reg : Option ProductName)
    (kind : DirKind) (fs : Fs) : Option (Path × Fs × Bool) :=
  let product_name := ((global reg).map (fun n => n.name)).getD "dev.thmsn.unspecified"
  (provider kind).map (fun base => mkdir_if_not_exists (base ++ [product_name]) fs)

/-- `configs_root`: the `configs` subdirectory of the local data directory,
created if absent. -/
def configs_root (provider : DirKind → Option Path) (reg : Option ProductName)
    (fs : Fs) : Option (Path × Fs) :=
  (appDir provider reg DirKind.data_local fs).map (fun r =>
    let m := mkdir_if_not_exists (r.1 ++ ["configs"]) r.2.1
    (m.1, m.2.1))

/-- `config_path`: `configs_root()` (re-ensured to exist) joined with
`{module}.toml`. -/
def config_path (provider : DirKind → Option Path) (reg : Option ProductName)
    (module : String) (fs : Fs) : Option (Path × Fs) :=
  (configs_root provider reg fs).map (fun r =>
    let m := mkdir_if_not_exists r.1 r.2
    (m.1 ++ [module ++ ".toml"], m.2.1))

/-- `logs_root`: the `logs` subdirectory of the local data directory,
created if absent. -/
def logs_root (provider : DirKind → Option Path) (reg : Option ProductName)
    (fs : Fs) : Option (Path × Fs) :=
  (appDir provider reg DirKind.data_local fs).map (fun r =>
    let m := mkdir_if_not_exists (r.1 ++ ["logs"]) r.2.1
    (m.1, m.2.1))

/-- `log_path`: `logs_root()` (re-ensured to exist) joined with
`log_{epoch}.json`; the clock reading is an explicit argument. -/
def log_path (provider : DirKind → Option Path) (reg : Option ProductName)
    (epoch : Nat) (fs : Fs) : Option (Path × Fs) :=
  (logs_root provider reg fs).map (fun r =>
    let m := mkdir_if_not_exists r.1 r.2
    (m.1 ++ ["log_" ++ toString epoch ++ ".json"], m.2.1))

example :
    config_path (fun _ => some ["root"]) none "database" [] =
      some (["root", "dev.thmsn.unspecified", "configs", "database.toml"],
        [([], FsKind.dir), (["root"], FsKind.dir),
         (["root", "dev.thmsn.unspecified"], FsKind.dir),
         (["root", "dev.thmsn.unspecified", "configs"], FsKind.dir)]) := by decide

theorem fsExists_iff (fs : Fs) (p : Path) :
    fsExists fs p = true ↔ ∃ e ∈ fs, e.1 = p := by
  unfold fsExists
  rw [List.any_eq_true]
  exact exists_congr fun e => and_congr_right fun _ => beq_iff_eq

theorem fsExists_append (fs l : Fs) (p : Path) :
    fsExists (fs ++ l) p = (fsExists fs p || fsExists l p) :=
  List.any_append

/-- The new entries added by `create_dir_all` are directories lying on the
ancestor chain of the created path. -/
theorem create_dir_all_frame (fs : Fs) (p : Path) :
    ∃ new, create_dir_all fs p = fs ++ new ∧
      ∀ e ∈ new, e.2 = FsKind.dir ∧ e.1 <+: p := by
  refine ⟨_, rfl, ?_⟩
  intro e he
  obtain ⟨a, ha, rfl⟩ := List.mem_map.mp he
  exact ⟨rfl, (List.mem_inits _ _).mp (List.mem_filter.mp ha).1⟩

theorem fsExists_create_mono (fs : Fs) (p q : Path) (h : fsExists fs q = true) :
    fsExists (create_dir_all fs p) q = true := by
  rw [create_dir_all, fsExists_append, h, Bool.true_or]

/-- After `create_dir_all`, every ancestor of the created path exists. -/
theorem fsExists_create_ancestor (fs : Fs) (p q : Path) (h : q <+: p) :
    fsExists (create_dir_all fs p) q = true := by
  cases hq : fsExists fs q with
  | true => exact fsExists_create_mono fs p q hq
  | false =>
    rw [create_dir_all, fsExists_append, Bool.or_eq_true]
    refine Or.inr ((fsExists_iff _ q).mpr ⟨(q, FsKind.dir), ?_, rfl⟩)
    exact List.mem_map_of_mem _
      (List.mem_filter.mpr ⟨(List.mem_inits _ _).mpr h, by rw [hq]; rfl⟩)

theorem fsExists_create_self (fs : Fs) (p : Path) :
    fsExists (create_dir_all fs p) p = true :=
  fsExists_create_ancestor fs p p (List.prefix_refl p)

theorem mkdir_of_exists (p : Path) (fs : Fs) (h : fsExists fs p = true) :
    mkdir_if_not_exists p fs = (p, fs, false) := by
  rw [mkdir_if_not_exists, if_pos h]

theorem mkdir_fst (p : Path) (fs : Fs) : (mkdir_if_not_exists p fs).1 = p := by
  rw [mkdir_if_not_exists]
  split <;> rfl

/-- The target path exists in the filesystem returned by
`mkdir_if_not_exists`. -/
theorem mkdir_exists_after (p : Path) (fs : Fs) :
    fsExists (mkdir_if_not_exists p fs).2.1 p = true := by
  rw [mkdir_if_not_exists]
  split
  next h => exact h
  next h => exact fsExists_create_self fs p

theorem mkdir_mono (p q : Path) (fs : Fs) (h : fsExists fs q = true) :
    fsExists (mkdir_if_not_exists p fs).2.1 q = true := by
  rw [mkdir_if_not_exists]
  split
  next => exact h
  next => exact fsExists_create_mono fs p q h

/-- The new entries added by `mkdir_if_not_exists` are directories lying on
the ancestor chain of the target path. -/
theorem mkdir_frame (p : Path) (fs : Fs) :
    ∃ new, (mkdir_if_not_exists p fs).2.1 = fs ++ new ∧
      ∀ e ∈ new, e.2 = FsKind.dir ∧ e.1 <+: p := by
  rw [mkdir_if_not_exists]
  split
  next => exact ⟨[], by rw [List.append_nil], by intro e he; cases he⟩
  next => exact create_dir_all_frame fs p

/-- A second `mkdir_if_not_exists` on its own output takes the early-return
branch: same path, same filesystem, no creation attempt. -/
theorem mkdir_idem (p : Path) (fs : Fs) :
    mkdir_if_not_exists p (mkdir_if_not_exists p fs).2.1 =
      (p, (mkdir_if_not_exists p fs).2.1, false) :=
  mkdir_of_exists p _ (mkdir_exists_after p fs)

/-- The single path segment appended by every `wrap_dirs!` function. -/
def product_segment (reg : Option ProductName) : String :=
  ((global reg).map (fun n => n.name)).getD "dev.thmsn.unspecified"

theorem appDir_eq (provider : DirKind → Option Path) (reg : Option ProductName)
    (kind : DirKind) (fs : Fs) :
    appDir provider reg kind fs =
      (provider kind).map (fun base =>
        mkdir_if_not_exists (base ++ [product_segment reg]) fs) := rfl

/-- Anatomy of a successful `appDir` call. -/
theorem appDir_spec (provider : DirKind → Option Path) (reg : Option ProductName)
    (kind : DirKind) (fs : Fs) (p : Path) (fs₁ : Fs) (c : Bool)
    (h : appDir provider reg kind fs = some (p, fs₁, c)) :
    ∃ base, provider kind = some base ∧ p = base ++ [product_segment reg] ∧
      fs₁ = (mkdir_if_not_exists p fs).2.1 := by
  rw [appDir_eq] at h
  obtain ⟨base, hbase, hmk⟩ := Option.map_eq_some'.mp h
  have hp : p = base ++ [product_segment reg] := by
    rw [← mkdir_fst (base ++ [product_segment reg]) fs, hmk]
  refine ⟨base, hbase, hp, ?_⟩
  rw [hp]
  exact (congrArg (fun r => r.2.1) hmk).symm

/-- The directory produced by `appDir` exists in the returned filesystem. -/
theorem appDir_exists_out (provider : DirKind → Option Path) (reg : Option ProductName)
    (kind : DirKind) (fs : Fs) (p : Path) (fs₁ : Fs) (c : Bool)
    (h : appDir provider reg kind fs = some (p, fs₁, c)) :
    fsExists fs₁ p = true := by
  obtain ⟨base, _, hp, hfs⟩ := appDir_spec provider reg kind fs p fs₁ c h
  rw [hfs, hp]
  exact mkdir_exists_after _ fs

/-- Re-running `appDir` on any filesystem where its directory already exists
returns that directory with no creation attempt. -/
theorem appDir_again (provider : DirKind → Option Path) (reg : Option ProductName)
    (kind : DirKind) (fs : Fs) (p : Path) (fs₁ : Fs) (c : Bool)
    (h : appDir provider reg kind fs = some (p, fs₁, c))
    (fs' : Fs) (hex : fsExists fs' p = true) :
    appDir provider reg kind fs' = some (p, fs', false) := by
  obtain ⟨base, hbase, hp, _⟩ := appDir_spec provider reg kind fs p fs₁ c h
  rw [appDir_eq, hbase, Option.map_some', ← hp, mkdir_of_exists p fs' hex]

/-- New entries of a successful `appDir` call are directories on the chain
of the produced path. -/
theorem appDir_frame (provider : DirKind → Option Path) (reg : Option ProductName)
    (kind : DirKind) (fs : Fs) (p : Path) (fs₁ : Fs) (c : Bool)
    (h : appDir provider reg kind fs = some (p, fs₁, c)) :
    ∃ new, fs₁ = fs ++ new ∧ ∀ e ∈ new, e.2 = FsKind.dir ∧ e.1 <+: p := by
  obtain ⟨base, _, hp, hfs⟩ := appDir_spec provider reg kind fs p fs₁ c h
  obtain ⟨new, hnew, hprop⟩ := mkdir_frame p fs
  exact ⟨new, by rw [hfs, hnew], hprop⟩

/-- Common shape of `configs_root` and `logs_root`. -/
def root_dir (provider : DirKind → Option Path) (reg : Option ProductName)
    (seg : String) (fs : Fs) : Option (Path × Fs) :=
  (appDir provider reg DirKind.data_local fs).map (fun r =>
    let m := mkdir_if_not_exists (r.1 ++ [seg]) r.2.1
    (m.1, m.2.1))

theorem configs_root_eq (provider : DirKind → Option Path) (reg : Option ProductName)
    (fs : Fs) : configs_root provider reg fs = root_dir provider reg "configs" fs := rfl

theorem logs_root_eq (provider : DirKind → Option Path) (reg : Option ProductName)
    (fs : Fs) : logs_root provider reg fs = root_dir provider reg "logs" fs := rfl

/-- Anatomy of a successful root-directory call: the produced directory
exists afterwards, a second call is the identity, and all new entries are
directories on the chain of the produced directory. -/
theorem root_dir_spec (provider : DirKind → Option Path) (reg : Option ProductName)
    (seg : String) (fs : Fs) (q : Path) (fs₁ : Fs)
    (h : root_dir provider reg seg fs = some (q, fs₁)) :
    fsExists fs₁ q = true ∧ root_dir provider reg seg fs₁ = some (q, fs₁) ∧
      ∃ new, fs₁ = fs ++ new ∧ ∀ e ∈ new, e.2 = FsKind.dir ∧ e.1 <+: q := by
  obtain ⟨⟨p, fsa, c⟩, happ, hmk⟩ := Option.map_eq_some'.mp h
  simp only at hmk
  rw [Prod.mk.injEq, mkdir_fst] at hmk
  have hq : q = p ++ [seg] := hmk.1.symm
  have hfs₁ : fs₁ = (mkdir_if_not_exists (p ++ [seg]) fsa).2.1 := hmk.2.symm
  have hex₁ : fsExists fs₁ q = true := by
    rw [hfs₁, hq]; exact mkdir_exists_after _ fsa
  have hexp : fsExists fs₁ p = true := by
    rw [hfs₁]
    exact mkdir_mono _ p fsa (appDir_exists_out provider reg _ fs p fsa c happ)
  refine ⟨hex₁, ?_, ?_⟩
  · rw [root_dir, appDir_again provider reg _ fs p fsa c happ fs₁ hexp,
      Option.map_some']
    simp only
    rw [← hq, mkdir_of_exists q fs₁ hex₁]
  · obtain ⟨n₁, hn₁, hp₁⟩ := appDir_frame provider reg _ fs p fsa c happ
    obtain ⟨n₂, hn₂, hp₂⟩ := mkdir_frame (p ++ [seg]) fsa
    refine ⟨n₁ ++ n₂, ?_, ?_⟩
    · rw [hfs₁, hn₂, hn₁, List.append_assoc]
    · intro e he
      rcases List.mem_append.mp he with h1 | h2
      · exact ⟨(hp₁ e h1).1, ((hp₁ e h1).2.trans (List.prefix_append p [seg])).trans
          (by rw [hq])⟩
      · exact ⟨(hp₂ e h2).1, by rw [hq]; exact (hp₂ e h2).2⟩

/-- Common shape of `config_path` and `log_path`. -/
def file_in_root (provider : DirKind → Option Path) (reg : Option ProductName)
    (seg fname : String) (fs : Fs) : Option (Path × Fs) :=
  (root_dir provider reg seg fs).map (fun r =>
    let m := mkdir_if_not_exists r.1 r.2
    (m.1 ++ [fname], m.2.1))

theorem config_path_eq (provider : DirKind → Option Path) (reg : Option ProductName)
    (module : String) (fs : Fs) :
    config_path provider reg module fs =
      file_in_root provider reg "configs" (module ++ ".toml") fs := rfl

theorem log_path_eq (provider : DirKind → Option Path) (reg : Option ProductName)
    (epoch : Nat) (fs : Fs) :
    log_path provider reg epoch fs =
      file_in_root provider reg "logs" ("log_" ++ toString epoch ++ ".json") fs := rfl

/-- Anatomy of a successful file-path call: the root call did all the work,
the returned path is the root joined with the file name, and the
filesystem is the root call's filesystem. -/
theorem file_in_root_spec (provider : DirKind → Option Path) (reg : Option ProductName)
    (seg fname : String) (fs : Fs) (ret : Path) (fs' : Fs)
    (h : file_in_root provider reg seg fname fs = some (ret, fs')) :
    ∃ q, root_dir provider reg seg fs = some (q, fs') ∧ ret = q ++ [fname] := by
  obtain ⟨⟨q, fsr⟩, hroot, hmk⟩ := Option.map_eq_some'.mp h
  simp only at hmk
  have hex : fsExists fsr q = true :=
    (root_dir_spec provider reg seg fs q fsr hroot).1
  rw [mkdir_of_exists q fsr hex] at hmk
  simp only at hmk
  rw [Prod.mk.injEq] at hmk
  exact ⟨q, by rw [hroot, hmk.2], hmk.1.symm⟩

/-- A second file-path call is the identity on path and filesystem. -/
theorem file_in_root_idem (provider : DirKind → Option Path) (reg : Option ProductName)
    (seg fname : String) (fs : Fs) (ret : Path) (fs' : Fs)
    (h : file_in_root provider reg seg fname fs = some (ret, fs')) :
    file_in_root provider reg seg fname fs' = some (ret, fs') := by
  obtain ⟨q, hroot, hret⟩ := file_in_root_spec provider reg seg fname fs ret fs' h
  obtain ⟨hex, hagain, _⟩ := root_dir_spec provider reg seg fs q fs' hroot
  rw [file_in_root, hagain, Option.map_some']
  simp only
  rw [mkdir_of_exists q fs' hex]
  simp only
  rw [hret]

theorem foldl_append_init (xs : List String) : ∀ acc : String,
    xs.foldl (· ++ ·) acc = acc ++ xs.foldl (· ++ ·) "" := by
  induction xs with
  | nil => intro acc; exact (String.append_empty acc).symm
  | cons x xs ih =>
    intro acc
    rw [List.foldl_cons, List.foldl_cons, ih (acc ++ x), ih ("" ++ x),
      String.empty_append, String.append_assoc]

theorem join_cons (x : String) (xs : List String) :
    String.join (x :: xs) = x ++ String.join xs := by
  show List.foldl (· ++ ·) "" (x :: xs) = x ++ List.foldl (· ++ ·) "" xs
  rw [List.foldl_cons, String.empty_append, foldl_append_init xs x]

/-- The `Display` rendering written with an explicit join: the base, then
each extension prefixed with a dot, in order. -/
theorem foldl_dot (l : List String) : ∀ acc : String,
    l.foldl (fun a e => a ++ "." ++ e) acc =
      acc ++ String.join (l.map (fun e => "." ++ e)) := by
  induction l with
  | nil => intro acc; exact (String.append_empty acc).symm
  | cons e es ih =>
    intro acc
    rw [List.foldl_cons, ih (acc ++ "." ++ e), List.map_cons, join_cons,
      String.append_assoc, String.append_assoc, String.append_assoc]

theorem name_eq_join (pn : ProductName) :
    pn.name = pn.base ++ String.join (pn.ext.map (fun e => "." ++ e)) :=
  foldl_dot pn.ext pn.base

theorem with_ext (pn : ProductName) (e : String) :
    (pn.with_ e).ext = pn.ext ++ [e] := rfl

theorem with_base (pn : ProductName) (e : String) : (pn.with_ e).base = pn.base := rfl

theorem with_version (pn : ProductName) (e : String) :
    (pn.with_ e).version = pn.version := rfl

theorem with_build (pn : ProductName) (e : String) : (pn.with_ e).build = pn.build := rfl

theorem withMany_ext (exts : List String) : ∀ pn : ProductName,
    (pn.withMany exts).ext = pn.ext ++ exts := by
  induction exts with
  | nil => intro pn; exact (List.append_nil _).symm
  | cons e es ih =>
    intro pn
    show ((pn.with_ e).withMany es).ext = pn.ext ++ (e :: es)
    rw [ih (pn.with_ e), with_ext, List.append_assoc, List.singleton_append]

theorem withMany_base (exts : List String) : ∀ pn : ProductName,
    (pn.withMany exts).base = pn.base := by
  induction exts with
  | nil => intro pn; rfl
  | cons e es ih => intro pn; exact ih (pn.with_ e)

theorem registerAll_some (pn : ProductName) (ps : List ProductName) :
    registerAll (some pn) ps = some pn := by
  induction ps with
  | nil => rfl
  | cons p ps ih => exact ih

/-- A sample build-provenance record for concrete instantiations. -/
def sampleGit : GitInfo :=
  ⟨some "main", "abcdef0123", "abcdef0", true, some " fix: bug ", some "Jane",
    some "jane@x.dev", ["v1"], some "git@x", some 42⟩

/-- A sample build agent for concrete instantiations. -/
def sampleAgent : Agent :=
  ⟨"host", ⟨"Darwin", "25.0", "macOS 26", "arm64"⟩, 14, ⟨⟨"25.77 GB"⟩⟩⟩

/-- A sample build-provenance record carrying package version `2.0`. -/
def sampleBuild : BuildInfo := ⟨⟨some "2.0"⟩, sampleGit, sampleAgent⟩

/-- C3: the global registry is set-once: registering on the unset registry
stores the identifier and succeeds; any later registration fails with the
already-registered error and leaves the stored value unchanged, so reads
still return the first identifier; reading before any registration yields
an absent result. -/
theorem registry_set_once (pn pn' : ProductName) (ps : List ProductName) :
    set_global none pn = (some pn, Except.ok ()) ∧
    global (none : Option ProductName) = none ∧
    set_global (some pn) pn' =
      (some pn, Except.error "Product name has already been set") ∧
    global (set_global (some pn) pn').1 = some pn ∧
    global (registerAll (set_global none pn).1 ps) = some pn :=
  ⟨rfl, rfl, rfl, rfl, registerAll_some pn ps⟩

/-- C4: for every base string and every sequence of extension segments, the
rendered name of the identifier built by any sequence of `with` calls is
the base followed by each extension segment prefixed with a dot, in append
order. -/
theorem render_name_appends_dotted_extensions (base version : String)
    (build : Option BuildInfo) (exts : List String) :
    ((ProductName.new base version build).withMany exts).name =
      base ++ String.join (exts.map (fun e => "." ++ e)) := by
  rw [name_eq_join, withMany_base, withMany_ext]
  show base ++ String.join ((([] : List String) ++ exts).map (fun e => "." ++ e)) = _
  rw [List.nil_append]

/-- C5: `with` returns a new identifier with one extension segment appended
and all other fields equal to the receiver's; deriving two identifiers
from the same receiver yields independent extension lists. -/
theorem with_appends_one_segment (pn : ProductName) (e e₁ e₂ f : String) :
    (pn.with_ e).base = pn.base ∧ (pn.with_ e).version = pn.version ∧
    (pn.with_ e).build = pn.build ∧ (pn.with_ e).ext = pn.ext ++ [e] ∧
    ((pn.with_ e₁).with_ f).ext = pn.ext ++ [e₁, f] ∧
    (pn.with_ e₂).ext = pn.ext ++ [e₂] := by
  refine ⟨rfl, rfl, rfl, rfl, ?_, rfl⟩
  rw [with_ext, with_ext, List.append_assoc]
  rfl

/-- C7: the resolved version is the version supplied by the build record
when one is present and supplies it, and otherwise the identifier's own
version field. -/
theorem resolved_version_fallback (pn : ProductName) :
    (pn.build = none → pn.resolved_version = pn.version) ∧
    (∀ b, pn.build = some b → b.package.version = none →
      pn.resolved_version = pn.version) ∧
    (∀ b v, pn.build = some b → b.package.version = some v →
      pn.resolved_version = v) := by
  refine ⟨fun h => ?_, fun b hb hv => ?_, fun b v hb hv => ?_⟩ <;>
    simp [ProductName.resolved_version, *]

/-- Witness for C7 at concrete identifiers with and without build data. -/
theorem resolved_version_fallback_witness :
    (ProductName.new "app" "1.0" none).resolved_version = "1.0" ∧
    (ProductName.new "app" "1.0" (some sampleBuild)).resolved_version = "2.0" :=
  ⟨(resolved_version_fallback (ProductName.new "app" "1.0" none)).1 rfl,
   (resolved_version_fallback (ProductName.new "app" "1.0" (some sampleBuild))).2.2
     sampleBuild "2.0" rfl rfl⟩

/-- C9: when the existence test reports true — also for an entry that is
not a directory — `mkdir_if_not_exists` returns the path with the
filesystem untouched and no creation attempt; creation of the directory
and all missing ancestors happens exactly when the test reports false. -/
theorem mkdir_checks_existence_only (fs : Fs) (p : Path) :
    (fsExists fs p = true → mkdir_if_not_exists p fs = (p, fs, false)) ∧
    (∀ k : FsKind, mkdir_if_not_exists p ((p, k) :: fs) = (p, (p, k) :: fs, false)) ∧
    (fsExists fs p = false →
      mkdir_if_not_exists p fs = (p, create_dir_all fs p, true) ∧
      ∀ q, q <+: p → fsExists (create_dir_all fs p) q = true) := by
  refine ⟨fun h => mkdir_of_exists p fs h, fun k => ?_, fun h => ⟨?_, ?_⟩⟩
  · exact mkdir_of_exists p _ (by simp [fsExists])
  · rw [mkdir_if_not_exists, if_neg (by rw [h]; exact Bool.false_ne_true)]
  · exact fun q hq => fsExists_create_ancestor fs p q hq

/-- Witness for C9: a non-directory entry satisfies the existence test and
suppresses creation; a missing path triggers creation. -/
theorem mkdir_checks_existence_only_witness :
    mkdir_if_not_exists ["a"] [(["a"], FsKind.file)] =
      (["a"], [(["a"], FsKind.file)], false) ∧
    mkdir_if_not_exists ["b"] [] = (["b"], create_dir_all [] ["b"], true) :=
  ⟨(mkdir_checks_existence_only [(["a"], FsKind.file)] ["a"]).1 (by decide),
   ((mkdir_checks_existence_only [] ["b"]).2.2 (by decide)).1⟩

/-- A successful file-path call joins the file name onto the root it
created, adds only directory entries on the root's ancestor chain, never
the returned file path itself, and leaves the existence status of the
returned file path unchanged. -/
theorem file_in_root_frame (provider : DirKind → Option Path) (reg : Option ProductName)
    (seg fname : String) (fs : Fs) (ret : Path) (fs' : Fs)
    (h : file_in_root provider reg seg fname fs = some (ret, fs')) :
    ret = ret.dropLast ++ [fname] ∧
    ∃ new, fs' = fs ++ new ∧
      (∀ e ∈ new, e.2 = FsKind.dir ∧ e.1 <+: ret.dropLast ∧ e.1 ≠ ret) ∧
      fsExists fs' ret = fsExists fs ret := by
  obtain ⟨q, hroot, hret⟩ := file_in_root_spec provider reg seg fname fs ret fs' h
  obtain ⟨_, _, new, hfs', hnew⟩ := root_dir_spec provider reg seg fs q fs' hroot
  have hdrop : ret.dropLast = q := by rw [hret]; simp
  have hprop : ∀ e ∈ new, e.2 = FsKind.dir ∧ e.1 <+: ret.dropLast ∧ e.1 ≠ ret := by
    intro e he
    obtain ⟨h1, h2⟩ := hnew e he
    refine ⟨h1, by rw [hdrop]; exact h2, ?_⟩
    intro hcontra
    have hlen : e.1.length ≤ q.length := h2.length_le
    rw [hcontra, hret, List.length_append, List.length_singleton] at hlen
    omega
  refine ⟨by rw [hdrop]; exact hret, new, hfs', hprop, ?_⟩
  have hnone : fsExists new ret = false := by
    cases hb : fsExists new ret with
    | false => rfl
    | true =>
      obtain ⟨e, he, he1⟩ := (fsExists_iff new ret).mp hb
      exact absurd he1 (hprop e he).2.2
  rw [hfs', fsExists_append, hnone, Bool.or_false]

/-- C2: every path-producing operation is idempotent: called again on the
filesystem it produced (same provider, registry and clock inputs), it
returns the same path and the same filesystem, with no creation attempt
and no failure. -/
theorem path_operations_idempotent (provider : DirKind → Option Path)
    (reg : Option ProductName) (kind : DirKind) (module : String) (epoch : Nat)
    (fs : Fs) :
    (∀ p fs₁ c, appDir provider reg kind fs = some (p, fs₁, c) →
      appDir provider reg kind fs₁ = some (p, fs₁, false)) ∧
    (∀ p fs₁, configs_root provider reg fs = some (p, fs₁) →
      configs_root provider reg fs₁ = some (p, fs₁)) ∧
    (∀ p fs₁, config_path provider reg module fs = some (p, fs₁) →
      config_path provider reg module fs₁ = some (p, fs₁)) ∧
    (∀ p fs₁, logs_root provider reg fs = some (p, fs₁) →
      logs_root provider reg fs₁ = some (p, fs₁)) ∧
    (∀ p fs₁, log_path provider reg epoch fs = some (p, fs₁) →
      log_path provider reg epoch fs₁ = some (p, fs₁)) := by
  refine ⟨?_, ?_, ?_, ?_, ?_⟩
  · intro p fs₁ c h
    exact appDir_again provider reg kind fs p fs₁ c h fs₁
      (appDir_exists_out provider reg kind fs p fs₁ c h)
  · intro p fs₁ h
    rw [configs_root_eq] at h ⊢
    exact (root_dir_spec provider reg "configs" fs p fs₁ h).2.1
  · intro p fs₁ h
    rw [config_path_eq] at h ⊢
    exact file_in_root_idem provider reg "configs" (module ++ ".toml") fs p fs₁ h
  · intro p fs₁ h
    rw [logs_root_eq] at h ⊢
    exact (root_dir_spec provider reg "logs" fs p fs₁ h).2.1
  · intro p fs₁ h
    rw [log_path_eq] at h ⊢
    exact file_in_root_idem provider reg "logs"
      ("log_" ++ toString epoch ++ ".json") fs p fs₁ h

/-- Witness for C2: a second call after a first call on the empty
filesystem returns the same path and filesystem, for a directory function
and for `config_path`. -/
theorem path_operations_idempotent_witness :
    appDir (fun _ => some ["root"]) none DirKind.config
        [([], FsKind.dir), (["root"], FsKind.dir),
         (["root", "dev.thmsn.unspecified"], FsKind.dir)] =
      some (["root", "dev.thmsn.unspecified"],
        [([], FsKind.dir), (["root"], FsKind.dir),
         (["root", "dev.thmsn.unspecified"], FsKind.dir)], false) ∧
    config_path (fun _ => some ["root"]) none "database"
        [([], FsKind.dir), (["root"], FsKind.dir),
         (["root", "dev.thmsn.unspecified"], FsKind.dir),
         (["root", "dev.thmsn.unspecified", "configs"], FsKind.dir)] =
      some (["root", "dev.thmsn.unspecified", "configs", "database.toml"],
        [([], FsKind.dir), (["root"], FsKind.dir),
         (["root", "dev.thmsn.unspecified"], FsKind.dir),
         (["root", "dev.thmsn.unspecified", "configs"], FsKind.dir)]) :=
  ⟨(path_operations_idempotent (fun _ => some ["root"]) none DirKind.config
      "database" 7 []).1 _ _ true (by decide),
   (path_operations_idempotent (fun _ => some ["root"]) none DirKind.config
      "database" 7 []).2.2.1 _ _ (by decide)⟩

/-- C8: every directory function appends the fixed default identifier
string as the product segment when nothing is registered — instead of
failing — and the registered identifier's rendered name otherwise. -/
theorem app_dir_default_or_registered_segment (provider : DirKind → Option Path)
    (kind : DirKind) (fs : Fs) (base : Path) (pn : ProductName)
    (h : provider kind = some base) :
    (appDir provider none kind fs).map (fun r => r.1) =
      some (base ++ ["dev.thmsn.unspecified"]) ∧
    (∀ version build, (DEFAULT_PRODUCT_NAME version build).name =
      "dev.thmsn.unspecified") ∧
    (appDir provider (some pn) kind fs).map (fun r => r.1) =
      some (base ++ [pn.name]) := by
  refine ⟨?_, fun version build => rfl, ?_⟩
  · rw [appDir_eq, h, Option.map_some', Option.map_some', mkdir_fst]; rfl
  · rw [appDir_eq, h, Option.map_some', Option.map_some', mkdir_fst]; rfl

/-- Witness for C8 with a concrete provider and identifier. -/
theorem app_dir_default_or_registered_segment_witness :
    (appDir (fun _ => some ["r"]) none DirKind.cache []).map (fun r => r.1) =
      some (["r", "dev.thmsn.unspecified"]) ∧
    (appDir (fun _ => some ["r"]) (some (ProductName.new "x" "1" none))
        DirKind.cache []).map (fun r => r.1) = some (["r", "x"]) :=
  ⟨(app_dir_default_or_registered_segment (fun _ => some ["r"]) DirKind.cache []
      ["r"] (ProductName.new "x" "1" none) rfl).1,
   (app_dir_default_or_registered_segment (fun _ => some ["r"]) DirKind.cache []
      ["r"] (ProductName.new "x" "1" none) rfl).2.2⟩

/-- C10: `config_path` and `log_path` create only ancestor directories of
the file's parent, never the returned file itself: the returned path is a
freshly joined file name whose existence status is unchanged, and all new
filesystem entries are directories on the created chain. -/
theorem file_paths_create_only_ancestor_dirs (provider : DirKind → Option Path)
    (reg : Option ProductName) (module : String) (epoch : Nat) (fs : Fs)
    (ret : Path) (fs' : Fs) :
    (config_path provider reg module fs = some (ret, fs') →
      ret = ret.dropLast ++ [module ++ ".toml"] ∧
      ∃ new, fs' = fs ++ new ∧
        (∀ e ∈ new, e.2 = FsKind.dir ∧ e.1 <+: ret.dropLast ∧ e.1 ≠ ret) ∧
        fsExists fs' ret = fsExists fs ret) ∧
    (log_path provider reg epoch fs = some (ret, fs') →
      ret = ret.dropLast ++ ["log_" ++ toString epoch ++ ".json"] ∧
      ∃ new, fs' = fs ++ new ∧
        (∀ e ∈ new, e.2 = FsKind.dir ∧ e.1 <+: ret.dropLast ∧ e.1 ≠ ret) ∧
        fsExists fs' ret = fsExists fs ret) := by
  constructor
  · intro h
    rw [config_path_eq] at h
    exact file_in_root_frame provider reg "configs" (module ++ ".toml") fs ret fs' h
  · intro h
    rw [log_path_eq] at h
    exact file_in_root_frame provider reg "logs"
      ("log_" ++ toString epoch ++ ".json") fs ret fs' h

/-- Witness for C10 at a concrete `config_path` call on the empty
filesystem. -/
theorem file_paths_create_only_ancestor_dirs_witness :
    ["root", "dev.thmsn.unspecified", "configs", "database.toml"] =
      (["root", "dev.thmsn.unspecified", "configs", "database.toml"] : Path).dropLast
        ++ ["database.toml"] ∧
    ∃ new,
      ([([], FsKind.dir), (["root"], FsKind.dir),
        (["root", "dev.thmsn.unspecified"], FsKind.dir),
        (["root", "dev.thmsn.unspecified", "configs"], FsKind.dir)] : Fs) =
        [] ++ new ∧
      (∀ e ∈ new, e.2 = FsKind.dir ∧
        e.1 <+: (["root", "dev.thmsn.unspecified", "configs",
          "database.toml"] : Path).dropLast ∧
        e.1 ≠ ["root", "dev.thmsn.unspecified", "configs", "database.toml"]) ∧
      fsExists [([], FsKind.dir), (["root"], FsKind.dir),
        (["root", "dev.thmsn.unspecified"], FsKind.dir),
        (["root", "dev.thmsn.unspecified", "configs"], FsKind.dir)]
        ["root", "dev.thmsn.unspecified", "configs", "database.toml"] =
      fsExists [] ["root", "dev.thmsn.unspecified", "configs", "database.toml"] :=
  (file_paths_create_only_ancestor_dirs (fun _ => some ["root"]) none "database"
    7 [] ["root", "dev.thmsn.unspecified", "configs", "database.toml"]
    [([], FsKind.dir), (["root"], FsKind.dir),
     (["root", "dev.thmsn.unspecified"], FsKind.dir),
     (["root", "dev.thmsn.unspecified", "configs"], FsKind.dir)]).1 (by decide)

/-- C6 (evaluation at the failing input): with no build-provenance record
the catalog key `GIT_DIRTY_STAR` is left untouched instead of being
substituted with the empty string, although the other git keys are emptied
and NAME and VERSION are filled, and although the build-present branch
does substitute it. -/
theorem descriptor_no_build_leaves_dirty_star :
    (ProductName.new "app" "1.0" none).descriptor "{GIT_DIRTY_STAR}" =
      "{GIT_DIRTY_STAR}" ∧
    (ProductName.new "app" "1.0" none).descriptor format.DEFAULT_DIRTY =
      "app v1.0 (@{GIT_DIRTY_STAR})" ∧
    (ProductName.new "app" "1.0" none).descriptor format.DEFAULT =
      "app v1.0 (@)" ∧
    (ProductName.new "app" "1.0" (some sampleBuild)).descriptor
      "{GIT_DIRTY_STAR}" = "*" := by
  refine ⟨by decide, by decide, by decide, by decide⟩

/-- C1 (counterexample): a catalog-key token inside a resolved value is
re-substituted when its key comes later in the replacement chain: a base
name that is literally the VERSION token renders as the version string
under the NAME-only format, not as the untouched token. -/
theorem descriptor_resubstitutes_value_token_cex :
    (ProductName.mk "{VERSION}" [] "1.0" none).descriptor "{NAME}" = "1.0" ∧
    ("1.0" : String) ≠ "{VERSION}" := by
  refine ⟨by decide, by decide⟩

/-- C1 (amended): substitution is one fixed-order chain of literal
replacements; a token of a key already replaced earlier in the chain is
never re-substituted — here, a commit message that is literally the NAME
token survives to the output untouched for every identifier and every
build record carrying it. -/
theorem descriptor_no_earlier_resubstitution (pn : ProductName) (b : BuildInfo)
    (hb : pn.build = some b) (hm : b.git.commit_message = some "{NAME}") :
    pn.descriptor "{GIT_MESSAGE}" = "{NAME}" := by
  unfold ProductName.descriptor
  rw [hb]
  simp only
  rw [hm, Option.getD_some]
  have ht : strim "{NAME}" = "{NAME}" := by decide
  rw [ht]
  rw [sreplace_of_not_contains "{GIT_MESSAGE}" "{NAME}" _ (by decide)]
  rw [sreplace_of_not_contains "{GIT_MESSAGE}" "{VERSION}" _ (by decide)]
  rw [sreplace_of_not_contains "{GIT_MESSAGE}" "{GIT_REF}" _ (by decide)]
  rw [sreplace_of_not_contains "{GIT_MESSAGE}" "{GIT_LONG_HASH}" _ (by decide)]
  rw [sreplace_of_not_contains "{GIT_MESSAGE}" "{GIT_HASH}" _ (by decide)]
  rw [sreplace_of_not_contains "{GIT_MESSAGE}" "{GIT_DIRTY}" _ (by decide)]
  rw [sreplace_of_not_contains "{GIT_MESSAGE}" "{GIT_DIRTY_STAR}" _ (by decide)]
  rw [sreplace_self "{GIT_MESSAGE}" "{NAME}" (by decide)]
  rw [sreplace_of_not_contains "{NAME}" "{GIT_AUTHOR}" _ (by decide)]
  rw [sreplace_of_not_contains "{NAME}" "{GIT_EMAIL}" _ (by decide)]
  rw [sreplace_of_not_contains "{NAME}" "{GIT_TAGS}" _ (by decide)]
  rw [sreplace_of_not_contains "{NAME}" "{GIT_REMOTE}" _ (by decide)]
  rw [sreplace_of_not_contains "{NAME}" "{GIT_COMMIT_COUNT}" _ (by decide)]
  rw [sreplace_of_not_contains "{NAME}" "{BUILD_HOST}" _ (by decide)]
  rw [sreplace_of_not_contains "{NAME}" "{BUILD_OS}" _ (by decide)]
  rw [sreplace_of_not_contains "{NAME}" "{BUILD_OS_VERSION}" _ (by decide)]
  rw [sreplace_of_not_contains "{NAME}" "{BUILD_OS_LONG}" _ (by decide)]
  rw [sreplace_of_not_contains "{NAME}" "{BUILD_ARCH}" _ (by decide)]
  rw [sreplace_of_not_contains "{NAME}" "{BUILD_CPUS}" _ (by decide)]
  rw [sreplace_of_not_contains "{NAME}" "{BUILD_MEM}" _ (by decide)]

/-- A build record whose commit message is literally the NAME token. -/
def cexBuild : BuildInfo :=
  { sampleBuild with git := { sampleGit with commit_message := some "{NAME}" } }

/-- Witness for the amended C1 at a concrete identifier. -/
theorem descriptor_no_earlier_resubstitution_witness :
    (ProductName.mk "app" [] "1.0" (some cexBuild)).descriptor "{GIT_MESSAGE}" =
      "{NAME}" :=
  descriptor_no_earlier_resubstitution
    (ProductName.mk "app" [] "1.0" (some cexBuild)) cexBuild rfl rfl

end LibPath
